import Mathlib

/-!
Shallow embedding of `src/grrlib/source/GRRLIB_ttf.c` (GRRLIB's FreeType
text module).  The external FreeType engine and the GX point pipeline are
abstracted: FreeType face behaviour is a record of pure functions
(character-to-glyph mapping, kerning lookup, glyph rasterization), and the
GX pipeline is modelled by the list of points a call sequence emits.
Machine integers are modelled by `Int`/`Nat`, with explicit reductions
modulo 2^32 (u32 return values) and modulo 256 (u8 colour channels) at the
places where the C code performs the corresponding conversions.
-/

/-- A rasterized glyph bitmap (FreeType `FT_Bitmap`): `width` and `rows`
are the bitmap dimensions, `buffer` gives the 8-bit coverage value stored
at each flat index. -/
structure FT_Bitmap where
  width : Nat
  rows : Nat
  buffer : Nat → Nat

/-- The glyph-slot data read by `_PrintfTTFW` after a successful
`FT_Load_Glyph` with `FT_LOAD_RENDER`: the rendered bitmap, its left/top
bearings, and the horizontal advance in 26.6 fixed point. -/
structure FT_GlyphSlotData where
  bitmap : FT_Bitmap
  bitmap_left : Int
  bitmap_top : Int
  advanceX : Int

/-- Abstraction of a FreeType `FT_Face`: the pure observable behaviour of
the external rasterization engine on this face.  `charIndex` models
`FT_Get_Char_Index` (0 means missing glyph), `kernX` models the `delta.x`
returned by `FT_Get_Kerning`, `loadGlyph` models `FT_Load_Glyph` with
`FT_LOAD_RENDER` at a given pixel size (`none` = nonzero error code),
`hasKerning` models `FT_HAS_KERNING`, and `setPixelSizesOK` models whether
`FT_Set_Pixel_Sizes` at a given size returns 0. -/
structure FT_FaceRec where
  charIndex : Nat → Nat
  kernX : Nat → Nat → Int
  loadGlyph : Nat → Nat → Option FT_GlyphSlotData
  hasKerning : Bool
  setPixelSizesOK : Nat → Bool

/-- The handle type `GRRLIB_ttfFont`: a face pointer and the cached
kerning flag. -/
structure GRRLIB_ttfFont where
  face : FT_FaceRec
  kerning : Bool

/-- One point emitted to the GX pipeline by `DrawBitmap`
(`GX_Position3f32` coordinates and `GX_Color4u8` channels). -/
structure GXPoint where
  x : Int
  y : Int
  z : Int
  r : Nat
  g : Nat
  b : Nat
  a : Nat
deriving DecidableEq

/-- Calls the module makes into its collaborators while printing:
a glyph rasterization request (`FT_Load_Glyph`) or a batch of GX points
(one `DrawBitmap` invocation). -/
inductive TTFEvent where
  | load (glyphIndex : Nat)
  | draw (points : List GXPoint)
deriving DecidableEq

/-- Conversion of a C `int` value to `u32` (the return conversion of
`_PrintfTTFW`): reduction modulo 2^32. -/
def toU32 (v : Int) : Nat := (v % (2 ^ 32 : Int)).toNat

/-- Arithmetic shift right by 6 (C's `>> 6` on `FT_Pos` values):
floor division by 64. -/
def asr6 (v : Int) : Int := Int.fdiv v 64

/-- The `s16 alpha` computed per bitmap cell in `DrawBitmap`:
`alpha = buffer[...] - (0xFF - cA); if (alpha < 0) alpha = 0;`. -/
def alphaS16 (bv cA : Nat) : Int :=
  if (bv : Int) - (0xFF - (cA : Int)) < 0 then 0
  else (bv : Int) - (0xFF - (cA : Int))

/-- Conversion of the `s16 alpha` to the `u8` parameter of
`GX_Color4u8`: reduction modulo 256. -/
def gxU8 (v : Int) : Nat := (v % 256).toNat

/-- `DrawBitmap` from GRRLIB_ttf.c: the double loop over bitmap columns
`p` (outer, screen x `offset + p`) and rows `q` (inner, screen y
`top + q`), emitting one point per cell with the text colour and the
per-cell composited alpha. -/
def DrawBitmap (bitmap : FT_Bitmap) (offset top : Int)
    (cR cG cB cA : Nat) : List GXPoint :=
  (List.range bitmap.width).flatMap (fun (p : Nat) =>
    (List.range bitmap.rows).map (fun (q : Nat) =>
      { x := offset + (p : Int), y := top + (q : Int), z := 0,
        r := cR, g := cG, b := cB,
        a := gxU8 (alphaS16 (bitmap.buffer (q * bitmap.width + p)) cA) }))

/-- Modelled from the spec: the colour-component accessors `R`, `G`, `B`, `A`
applied to `color` in `_PrintfTTFW` come from GRRLIB headers that are not in
`src/`; per the spec the colour parameter is "Text color in RGBA format", so
the four 8-bit components are the bytes of the u32 from most significant
(red) to least significant (alpha). -/
def colR (color : Nat) : Nat := color / 2 ^ 24 % 256

/-- Green component of an RGBA colour (see `colR`). -/
def colG (color : Nat) : Nat := color / 2 ^ 16 % 256

/-- Blue component of an RGBA colour (see `colR`). -/
def colB (color : Nat) : Nat := color / 2 ^ 8 % 256

/-- Alpha component of an RGBA colour (see `colR`). -/
def colA (color : Nat) : Nat := color % 256

/-- The `while(*utf32)` loop of `_PrintfTTFW`.  The wide string is a list
of `wchar_t` values; the loop stops at the end of the buffer or at the
first NUL character.  State: `penX` (the pen's x position, a C `int`) and
`previousGlyph` (`FT_UInt`).  Returns the final `penX` together with the
sequence of rasterization/drawing calls made, in order.  Each iteration:
look up the glyph index, add the kerning delta when the font has kerning
and both glyph indices are nonzero, call `FT_Load_Glyph` (the `load`
event) and skip the rest on failure (`continue`), otherwise draw the
bitmap unless `noprint`, advance the pen, and remember the glyph. -/
def ttfLoop (Face : FT_FaceRec) (kerning : Bool) (x y : Int) (size : Nat)
    (penY : Int) (cR cG cB cA : Nat) (noprint : Bool) :
    List Nat → Int → Nat → Int × List TTFEvent
  | [], penX, _ => (penX, [])
  | c :: rest, penX, previousGlyph =>
    if c = 0 then (penX, [])
    else
      let glyphIndex := Face.charIndex c
      let penX1 : Int :=
        if kerning ∧ previousGlyph ≠ 0 ∧ glyphIndex ≠ 0 then
          penX + asr6 (Face.kernX previousGlyph glyphIndex)
        else penX
      match Face.loadGlyph size glyphIndex with
      | none =>
        let rec1 := ttfLoop Face kerning x y size penY cR cG cB cA noprint
          rest penX1 previousGlyph
        (rec1.1, TTFEvent.load glyphIndex :: rec1.2)
      | some slot =>
        let evs : List TTFEvent :=
          if noprint then []
          else [TTFEvent.draw (DrawBitmap slot.bitmap
            (penX1 + slot.bitmap_left + x) (penY - slot.bitmap_top + y)
            cR cG cB cA)]
        let rec1 := ttfLoop Face kerning x y size penY cR cG cB cA noprint
          rest (penX1 + asr6 slot.advanceX) glyphIndex
        (rec1.1, TTFEvent.load glyphIndex :: (evs ++ rec1.2))

/-- `_PrintfTTFW`, the common code of `GRRLIB_PrintfTTFW` and
`GRRLIB_WidthTTFW`.  `none` models a NULL pointer.  Returns the u32 width
(`penX` converted to `u32`) and the call trace.  `FT_Set_Pixel_Sizes` is
called with `fontSize` and, on failure, with 12; the glyphs subsequently
rendered are those of the resulting effective pixel size (the fallback
call is assumed to leave the face at size 12).  `penY` is initialized to
`fontSize` and never changes. -/
def _PrintfTTFW (x y : Int) (myFont : Option GRRLIB_ttfFont)
    (utf32 : Option (List Nat)) (fontSize : Nat) (color : Nat)
    (noprint : Bool) : Nat × List TTFEvent :=
  match myFont, utf32 with
  | some font, some s =>
    let Face := font.face
    let effSize := if Face.setPixelSizesOK fontSize then fontSize else 12
    let res := ttfLoop Face font.kerning x y effSize (fontSize : Int)
      (colR color) (colG color) (colB color) (colA color) noprint s 0 0
    (toU32 res.1, res.2)
  | _, _ => (0, [])

/-- `GRRLIB_PrintfTTFW`: print a wide string, returning its pixel width. -/
def GRRLIB_PrintfTTFW (x y : Int) (myFont : Option GRRLIB_ttfFont)
    (utf32 : Option (List Nat)) (fontSize : Nat) (color : Nat) :
    Nat × List TTFEvent :=
  _PrintfTTFW x y myFont utf32 fontSize color false

/-- `GRRLIB_WidthTTFW`: measure a wide string without printing. -/
def GRRLIB_WidthTTFW (myFont : Option GRRLIB_ttfFont)
    (utf32 : Option (List Nat)) (fontSize : Nat) : Nat × List TTFEvent :=
  _PrintfTTFW 0 0 myFont utf32 fontSize 0 true

/-- `_PrintfTTF`, the common code of `GRRLIB_PrintfTTF` and
`GRRLIB_WidthTTF`.  The libc conversion `mbstowcs` is external to the
repository and is modelled as the parameter `mbstowcs`: `none` models the
`(size_t)-1` failure return, `some ws` a successful conversion to the wide
characters `ws` (without the terminating NUL).  The C code's first call
`mbstowcs(NULL, string, 0)` then yields `ws.length`; after `length++` and
`alloca`, the second call fills the buffer with `ws` and returns
`ws.length`, the guard `> 0` requires `ws` nonempty, and
`utf32[length-1] = 0` writes the final NUL, so the buffer handed to
`_PrintfTTFW` is `ws ++ [0]`. -/
def _PrintfTTF (mbstowcs : List Nat → Option (List Nat)) (x y : Int)
    (myFont : Option GRRLIB_ttfFont) (string : Option (List Nat))
    (fontSize : Nat) (color : Nat) (noprint : Bool) : Nat × List TTFEvent :=
  match myFont, string with
  | some font, some s =>
    match mbstowcs s with
    | none => (0, [])
    | some ws =>
      if 0 < ws.length then
        _PrintfTTFW x y (some font) (some (ws ++ [0])) fontSize color noprint
      else (0, [])
  | _, _ => (0, [])

/-- `GRRLIB_PrintfTTF`: print a `char*` string, returning its pixel
width. -/
def GRRLIB_PrintfTTF (mbstowcs : List Nat → Option (List Nat)) (x y : Int)
    (myFont : Option GRRLIB_ttfFont) (string : Option (List Nat))
    (fontSize : Nat) (color : Nat) : Nat × List TTFEvent :=
  _PrintfTTF mbstowcs x y myFont string fontSize color false

/-- `GRRLIB_WidthTTF`: measure a `char*` string without printing. -/
def GRRLIB_WidthTTF (mbstowcs : List Nat → Option (List Nat))
    (myFont : Option GRRLIB_ttfFont) (string : Option (List Nat))
    (fontSize : Nat) : Nat × List TTFEvent :=
  _PrintfTTF mbstowcs 0 0 myFont string fontSize 0 true

/-- `GRRLIB_LoadTTF`: create a face from the buffer via the external
`FT_New_Memory_Face` (modelled as the parameter `newMemoryFace`, `none`
being a nonzero error code), returning NULL on failure and otherwise a
freshly allocated handle holding the face and its `FT_HAS_KERNING` flag
(`malloc` is assumed to succeed). -/
def GRRLIB_LoadTTF (newMemoryFace : List Nat → Int → Option FT_FaceRec)
    (file_base : List Nat) (file_size : Int) : Option GRRLIB_ttfFont :=
  match newMemoryFace file_base file_size with
  | none => none
  | some Face => some { face := Face, kerning := Face.hasKerning }

/-- Resource actions `GRRLIB_FreeTTF` can perform: releasing the face via
`FT_Done_Face`, and freeing the handle via `free`. -/
inductive FreeAction where
  | doneFace (face : FT_FaceRec)
  | freeHandle

/-- `GRRLIB_FreeTTF`: the ordered list of resource actions performed for
the given handle (`none` models a NULL pointer). -/
def GRRLIB_FreeTTF (myFont : Option GRRLIB_ttfFont) : List FreeAction :=
  match myFont with
  | none => []
  | some font => [FreeAction.doneFace font.face, FreeAction.freeHandle]

/-- All points a call trace emits to the GX pipeline, in order. -/
def pointsOf (tr : List TTFEvent) : List GXPoint :=
  tr.flatMap (fun e => match e with
    | TTFEvent.draw ps => ps
    | TTFEvent.load _ => [])

/-- Whether an event is a glyph rasterization request. -/
def isLoadEvent : TTFEvent → Bool
  | TTFEvent.load _ => true
  | TTFEvent.draw _ => false

/-- The final pen position of the glyph loop does not depend on the
screen position, the pen baseline, the colour channels, or whether points
are actually drawn. -/
theorem ttfLoop_fst_indep (Face : FT_FaceRec) (kerning : Bool) (size : Nat)
    (s : List Nat) (pen : Int) (prev : Nat)
    (x y penY x' y' penY' : Int) (cR cG cB cA cR' cG' cB' cA' : Nat)
    (noprint noprint' : Bool) :
    (ttfLoop Face kerning x y size penY cR cG cB cA noprint s pen prev).1 =
    (ttfLoop Face kerning x' y' size penY' cR' cG' cB' cA' noprint' s pen
      prev).1 := by
  induction s generalizing pen prev with
  | nil => rfl
  | cons c rest ih =>
    by_cases hc : c = 0
    · simp [ttfLoop, hc]
    · cases h : Face.loadGlyph size (Face.charIndex c) with
      | none => simp [ttfLoop, hc, h]; apply ih
      | some slot => simp [ttfLoop, hc, h]; apply ih

/-- With `noprint` set, the glyph loop emits no draw events, hence no
points. -/
theorem ttfLoop_noprint_points (Face : FT_FaceRec) (kerning : Bool)
    (x y : Int) (size : Nat) (penY : Int) (cR cG cB cA : Nat)
    (s : List Nat) (pen : Int) (prev : Nat) :
    pointsOf (ttfLoop Face kerning x y size penY cR cG cB cA true s pen
      prev).2 = [] := by
  induction s generalizing pen prev with
  | nil => rfl
  | cons c rest ih =>
    by_cases hc : c = 0
    · simp [ttfLoop, hc, pointsOf]
    · cases h : Face.loadGlyph size (Face.charIndex c) with
      | none => simp [ttfLoop, hc, h, pointsOf] at ih ⊢; apply ih
      | some slot => simp [ttfLoop, hc, h, pointsOf] at ih ⊢; apply ih

/-- C1: Measure-only mode computes the same width as drawing mode without
drawing: `GRRLIB_WidthTTFW(font, s, size)` returns the same width as
`GRRLIB_PrintfTTFW(x, y, font, s, size, color)` for every `x`, `y` and
`color`, likewise `GRRLIB_WidthTTF` and `GRRLIB_PrintfTTF` for `char*`
strings, and the Width variants emit no points to the graphics
pipeline. -/
theorem C1_measure_equals_draw_width
    (myFont : Option GRRLIB_ttfFont) (utf32 : Option (List Nat))
    (fontSize : Nat) (x y : Int) (color : Nat)
    (mbstowcs : List Nat → Option (List Nat)) (str : Option (List Nat)) :
    (GRRLIB_WidthTTFW myFont utf32 fontSize).1 =
      (GRRLIB_PrintfTTFW x y myFont utf32 fontSize color).1 ∧
    pointsOf (GRRLIB_WidthTTFW myFont utf32 fontSize).2 = [] ∧
    (GRRLIB_WidthTTF mbstowcs myFont str fontSize).1 =
      (GRRLIB_PrintfTTF mbstowcs x y myFont str fontSize color).1 ∧
    pointsOf (GRRLIB_WidthTTF mbstowcs myFont str fontSize).2 = [] := by
  have hW : ∀ (f : Option GRRLIB_ttfFont) (u : Option (List Nat)),
      (_PrintfTTFW 0 0 f u fontSize 0 true).1 =
      (_PrintfTTFW x y f u fontSize color false).1 := by
    intro f u
    cases f with
    | none => rfl
    | some font =>
      cases u with
      | none => rfl
      | some s =>
        simp only [_PrintfTTFW]
        exact congrArg toU32 (ttfLoop_fst_indep _ _ _ _ _ _ _ _ _ _ _ _ _ _
          _ _ _ _ _ _ _ _)
  have hWpts : ∀ (f : Option GRRLIB_ttfFont) (u : Option (List Nat)),
      pointsOf (_PrintfTTFW 0 0 f u fontSize 0 true).2 = [] := by
    intro f u
    cases f with
    | none => rfl
    | some font =>
      cases u with
      | none => rfl
      | some s => exact ttfLoop_noprint_points _ _ _ _ _ _ _ _ _ _ _ _ _
  refine ⟨hW myFont utf32, hWpts myFont utf32, ?_, ?_⟩
  · cases myFont with
    | none => rfl
    | some font =>
      cases str with
      | none => rfl
      | some s =>
        simp only [GRRLIB_WidthTTF, GRRLIB_PrintfTTF, _PrintfTTF]
        cases mbstowcs s with
        | none => rfl
        | some ws =>
          by_cases hlen : 0 < ws.length
          · simp only [hlen, if_pos]
            exact hW (some font) (some (ws ++ [0]))
          · simp [hlen]
  · cases myFont with
    | none => rfl
    | some font =>
      cases str with
      | none => rfl
      | some s =>
        simp only [GRRLIB_WidthTTF, _PrintfTTF]
        cases mbstowcs s with
        | none => rfl
        | some ws =>
          by_cases hlen : 0 < ws.length
          · simp only [hlen, if_pos]
            exact hWpts (some font) (some (ws ++ [0]))
          · simp [hlen, pointsOf]


/-- C8: Degenerate inputs return zero and draw nothing: the wide entry
points return 0 and an empty trace when the font handle or the string is
NULL, and the `char*` entry points return 0 and an empty trace when the
font handle is NULL, the string is NULL, or `mbstowcs` reports failure. -/
theorem C8_degenerate_inputs (x y : Int) (myFont : Option GRRLIB_ttfFont)
    (utf32 : Option (List Nat)) (fontSize : Nat) (color : Nat)
    (mbstowcs : List Nat → Option (List Nat)) (str : Option (List Nat)) :
    ((myFont = none ∨ utf32 = none) →
      GRRLIB_PrintfTTFW x y myFont utf32 fontSize color = (0, []) ∧
      GRRLIB_WidthTTFW myFont utf32 fontSize = (0, [])) ∧
    ((myFont = none ∨ str = none ∨
        (∃ s, str = some s ∧ mbstowcs s = none)) →
      GRRLIB_PrintfTTF mbstowcs x y myFont str fontSize color = (0, []) ∧
      GRRLIB_WidthTTF mbstowcs myFont str fontSize = (0, [])) := by
  constructor
  · rintro (rfl | rfl)
    · exact ⟨rfl, rfl⟩
    · cases myFont <;> exact ⟨rfl, rfl⟩
  · rintro (rfl | rfl | ⟨s, rfl, hfail⟩)
    · exact ⟨rfl, rfl⟩
    · cases myFont <;> exact ⟨rfl, rfl⟩
    · cases myFont with
      | none => exact ⟨rfl, rfl⟩
      | some font =>
        constructor
        · simp [GRRLIB_PrintfTTF, _PrintfTTF, hfail]
        · simp [GRRLIB_WidthTTF, _PrintfTTF, hfail]

/-- C8 witness: at NULL font and NULL string the entry points return 0
and emit nothing. -/
theorem C8_degenerate_inputs_witness :
    GRRLIB_PrintfTTFW 0 0 none none 12 0 = (0, []) ∧
    GRRLIB_WidthTTFW none none 12 = (0, []) :=
  (C8_degenerate_inputs 0 0 none none 12 0 (fun _ => none) none).1
    (Or.inl rfl)

/-- C9: `GRRLIB_FreeTTF` does nothing on NULL, and on a non-NULL handle
releases the face via the font engine and then frees the handle, in that
order. -/
theorem C9_free_ttf :
    GRRLIB_FreeTTF none = [] ∧
    ∀ font : GRRLIB_ttfFont, GRRLIB_FreeTTF (some font) =
      [FreeAction.doneFace font.face, FreeAction.freeHandle] :=
  ⟨rfl, fun _ => rfl⟩

/-- C7: `GRRLIB_LoadTTF` returns NULL exactly when face creation fails;
on success the handle's `face` field is the created face and its
`kerning` field records whether that face has kerning. -/
theorem C7_load_ttf (newMemoryFace : List Nat → Int → Option FT_FaceRec)
    (file_base : List Nat) (file_size : Int) :
    (GRRLIB_LoadTTF newMemoryFace file_base file_size = none ↔
      newMemoryFace file_base file_size = none) ∧
    (∀ Face, newMemoryFace file_base file_size = some Face →
      GRRLIB_LoadTTF newMemoryFace file_base file_size =
        some { face := Face, kerning := Face.hasKerning }) := by
  constructor
  · cases h : newMemoryFace file_base file_size with
    | none => simp [GRRLIB_LoadTTF, h]
    | some Face => simp [GRRLIB_LoadTTF, h]
  · intro Face h
    simp [GRRLIB_LoadTTF, h]

/-- A concrete glyph used by witnesses: a 2x2 bitmap with advance 10
pixels (640 in 26.6 fixed point). -/
def glyphA : FT_GlyphSlotData :=
  { bitmap := { width := 2, rows := 2, buffer := fun i => 100 * i }
    bitmap_left := 1
    bitmap_top := 3
    advanceX := 640 }

/-- A concrete face used by witnesses: character `c` maps to glyph index
`c`; glyph index 1 rasterizes to `glyphA`, every other index fails to
load; all kerning deltas are 1 pixel (64 in 26.6 fixed point). -/
def faceA : FT_FaceRec :=
  { charIndex := fun c => c
    kernX := fun _ _ => 64
    loadGlyph := fun _ gi => if gi = 1 then some glyphA else none
    hasKerning := true
    setPixelSizesOK := fun _ => true }

/-- The font handle wrapping `faceA`. -/
def fontA : GRRLIB_ttfFont := { face := faceA, kerning := true }

/-- C7 witness: loading with an engine that creates `faceA` yields the
handle holding `faceA` and its kerning flag. -/
theorem C7_load_ttf_witness :
    GRRLIB_LoadTTF (fun _ _ => some faceA) [] 0 =
      some { face := faceA, kerning := faceA.hasKerning } :=
  (C7_load_ttf (fun _ _ => some faceA) [] 0).2 faceA rfl

/-- The clamped alpha equals `max 0 (bv - (255 - cA))`. -/
theorem alphaS16_eq_max (bv cA : Nat) :
    alphaS16 bv cA = max 0 ((bv : Int) - (255 - (cA : Int))) := by
  unfold alphaS16
  split <;> omega

/-- For 8-bit inputs the clamped alpha lies in `0..255`, so the `u8`
conversion in `GX_Color4u8` does not change it. -/
theorem gxU8_alphaS16 (bv cA : Nat) (hb : bv ≤ 255) (hA : cA ≤ 255) :
    ((gxU8 (alphaS16 bv cA) : Int) = alphaS16 bv cA) ∧
    gxU8 (alphaS16 bv cA) ≤ 255 := by
  have hlo : 0 ≤ alphaS16 bv cA := by unfold alphaS16; split <;> omega
  have hhi : alphaS16 bv cA < 256 := by unfold alphaS16; split <;> omega
  have hmod : alphaS16 bv cA % 256 = alphaS16 bv cA :=
    Int.emod_eq_of_lt hlo hhi
  unfold gxU8
  rw [hmod]
  constructor
  · exact Int.toNat_of_nonneg hlo
  · omega

/-- C2: Per-pixel alpha composite: every point `DrawBitmap` emits for a
cell with coverage `bv` carries the text's red, green and blue components
unchanged and alpha equal to `max(0, bv - (255 - cA))`; this value lies in
`0..255`, so the 8-bit colour call truncates nothing. -/
theorem C2_alpha_composite (bitmap : FT_Bitmap) (offset top : Int)
    (cR cG cB cA : Nat) (hA : cA ≤ 255)
    (hbuf : ∀ i, bitmap.buffer i ≤ 255) :
    ∀ pt ∈ DrawBitmap bitmap offset top cR cG cB cA,
      pt.r = cR ∧ pt.g = cG ∧ pt.b = cB ∧
      ∃ p q, p < bitmap.width ∧ q < bitmap.rows ∧
        (pt.a : Int) =
          max 0 ((bitmap.buffer (q * bitmap.width + p) : Int) -
            (255 - (cA : Int))) ∧
        pt.a ≤ 255 := by
  intro pt hpt
  simp only [DrawBitmap, List.mem_flatMap, List.mem_map,
    List.mem_range] at hpt
  obtain ⟨p, hp, q, hq, rfl⟩ := hpt
  refine ⟨rfl, rfl, rfl, p, q, hp, hq, ?_, ?_⟩
  · rw [(gxU8_alphaS16 _ cA (hbuf _) hA).1, alphaS16_eq_max]
  · exact (gxU8_alphaS16 _ cA (hbuf _) hA).2

/-- C2 witness: a 1x1 bitmap with coverage 200 and text alpha 100 emits
the single point with colour (5,6,7) and alpha 45 = 200 - 155. -/
theorem C2_alpha_composite_witness :
    ({ x := 0, y := 0, z := 0, r := 5, g := 6, b := 7, a := 45 } :
        GXPoint).r = 5 ∧
    ({ x := 0, y := 0, z := 0, r := 5, g := 6, b := 7, a := 45 } :
        GXPoint).g = 6 ∧
    ({ x := 0, y := 0, z := 0, r := 5, g := 6, b := 7, a := 45 } :
        GXPoint).b = 7 ∧
    ∃ p q, p < 1 ∧ q < 1 ∧
      ((({ x := 0, y := 0, z := 0, r := 5, g := 6, b := 7, a := 45 } :
          GXPoint).a : Int) =
        max 0 ((200 : Int) - (255 - (100 : Int)))) ∧
      ({ x := 0, y := 0, z := 0, r := 5, g := 6, b := 7, a := 45 } :
          GXPoint).a ≤ 255 := by
  have h := C2_alpha_composite
    { width := 1, rows := 1, buffer := fun _ => 200 } 0 0 5 6 7 100
    (by decide) (fun i => by show (200 : Nat) ≤ 255; decide)
    { x := 0, y := 0, z := 0, r := 5, g := 6, b := 7, a := 45 }
    (by decide)
  obtain ⟨h1, h2, h3, p, q, hp, hq, ha, hle⟩ := h
  exact ⟨h1, h2, h3, p, q, hp, hq, ha, hle⟩

/-- C5: Blit geometry: `DrawBitmap` on a bitmap of width `w` and rows `r`
drawn at `(offset, top)` emits exactly `w * r` points, and for every cell
`(p, q)` with `p < w` and `q < r` it emits the point at screen coordinate
`(offset + p, top + q, 0)` sampling the coverage value at buffer index
`q * w + p`. -/
theorem C5_blit_geometry (bitmap : FT_Bitmap) (offset top : Int)
    (cR cG cB cA : Nat) :
    (DrawBitmap bitmap offset top cR cG cB cA).length =
      bitmap.width * bitmap.rows ∧
    ∀ p q, p < bitmap.width → q < bitmap.rows →
      ({ x := offset + (p : Int), y := top + (q : Int), z := 0,
         r := cR, g := cG, b := cB,
         a := gxU8 (alphaS16 (bitmap.buffer (q * bitmap.width + p)) cA) } :
        GXPoint) ∈ DrawBitmap bitmap offset top cR cG cB cA := by
  constructor
  · simp [DrawBitmap, List.length_flatMap, Function.comp_def, mul_comm]
  · intro p q hp hq
    simp only [DrawBitmap, List.mem_flatMap, List.mem_map, List.mem_range]
    exact ⟨p, hp, q, hq, rfl⟩

/-- C5 witness: on the concrete 2x2 bitmap of `glyphA` at offset 3, top 4
with colour channels (5,6,7,255), the blit has 4 points and the cell
(1, 0) point is present. -/
theorem C5_blit_geometry_witness :
    (DrawBitmap glyphA.bitmap 3 4 5 6 7 255).length = 2 * 2 ∧
    ({ x := 3 + (1 : Int), y := 4 + (0 : Int), z := 0,
       r := 5, g := 6, b := 7,
       a := gxU8 (alphaS16 (glyphA.bitmap.buffer (0 * 2 + 1)) 255) } :
      GXPoint) ∈ DrawBitmap glyphA.bitmap 3 4 5 6 7 255 :=
  ⟨(C5_blit_geometry glyphA.bitmap 3 4 5 6 7 255).1,
   (C5_blit_geometry glyphA.bitmap 3 4 5 6 7 255).2 1 0 (by decide)
     (by decide)⟩

/-- The glyph loop makes exactly one rasterization request per character
of a NUL-free string, whatever the pen state. -/
theorem ttfLoop_load_count (Face : FT_FaceRec) (kerning : Bool)
    (x y : Int) (size : Nat) (penY : Int) (cR cG cB cA : Nat)
    (noprint : Bool) (s : List Nat) (h : 0 ∉ s) (pen : Int) (prev : Nat) :
    ((ttfLoop Face kerning x y size penY cR cG cB cA noprint s pen
      prev).2.countP isLoadEvent) = s.length := by
  induction s generalizing pen prev with
  | nil => rfl
  | cons c rest ih =>
    have hc : c ≠ 0 := fun h0 => h (h0 ▸ List.mem_cons_self c rest)
    have hrest : 0 ∉ rest := fun hr => h (List.mem_cons_of_mem c hr)
    cases hload : Face.loadGlyph size (Face.charIndex c) with
    | none =>
      simp [ttfLoop, hc, hload, List.countP_cons, isLoadEvent,
        ih hrest]
    | some slot =>
      cases noprint with
      | true =>
        simp [ttfLoop, hc, hload, List.countP_cons, isLoadEvent,
          ih hrest]
      | false =>
        simp [ttfLoop, hc, hload, List.countP_cons, List.countP_append,
          isLoadEvent, ih hrest]

/-- C10: For every NUL-free wide string and non-NULL font, the glyph loop
of `_PrintfTTFW` processes every character exactly once (one
`FT_Load_Glyph` request per character) and terminates (the loop is a
total structural recursion on the string); in particular the count is the
same for every starting pen position, so no accumulated pixel width stops
processing early, contrary to the in-code comment. -/
theorem C10_all_chars_processed (s : List Nat) (h : 0 ∉ s) :
    (∀ (Face : FT_FaceRec) (kerning : Bool) (x y : Int) (size : Nat)
      (penY : Int) (cR cG cB cA : Nat) (noprint : Bool) (pen : Int)
      (prev : Nat),
      ((ttfLoop Face kerning x y size penY cR cG cB cA noprint s pen
        prev).2.countP isLoadEvent) = s.length) ∧
    (∀ (x y : Int) (font : GRRLIB_ttfFont) (fontSize color : Nat)
      (noprint : Bool),
      ((_PrintfTTFW x y (some font) (some s) fontSize color
        noprint).2.countP isLoadEvent) = s.length) := by
  constructor
  · intro Face kerning x y size penY cR cG cB cA noprint pen prev
    exact ttfLoop_load_count Face kerning x y size penY cR cG cB cA
      noprint s h pen prev
  · intro x y font fontSize color noprint
    exact ttfLoop_load_count _ _ _ _ _ _ _ _ _ _ _ s h 0 0

/-- C10 witness: the three-character string `[1, 2, 3]` on `fontA`
produces exactly three rasterization requests. -/
theorem C10_all_chars_processed_witness :
    ((_PrintfTTFW 0 0 (some fontA) (some [1, 2, 3]) 12 0
      true).2.countP isLoadEvent) = 3 :=
  (C10_all_chars_processed [1, 2, 3] (by decide)).2 0 0 fontA 12 0 true

/-- Appending the terminating NUL to a NUL-free wide string does not
change what the glyph loop computes: the loop stops at the NUL. -/
theorem ttfLoop_append_nul (Face : FT_FaceRec) (kerning : Bool)
    (x y : Int) (size : Nat) (penY : Int) (cR cG cB cA : Nat)
    (noprint : Bool) (s : List Nat) (h : 0 ∉ s) (pen : Int) (prev : Nat) :
    ttfLoop Face kerning x y size penY cR cG cB cA noprint (s ++ [0]) pen
      prev =
    ttfLoop Face kerning x y size penY cR cG cB cA noprint s pen prev := by
  induction s generalizing pen prev with
  | nil => simp [ttfLoop]
  | cons c rest ih =>
    have hc : c ≠ 0 := fun h0 => h (h0 ▸ List.mem_cons_self c rest)
    have hrest : 0 ∉ rest := fun hr => h (List.mem_cons_of_mem c hr)
    cases hload : Face.loadGlyph size (Face.charIndex c) with
    | none => simp [ttfLoop, hc, hload, ih hrest]
    | some slot => simp [ttfLoop, hc, hload, ih hrest]

/-- C4: The `char*` entry points perform no character-encoding conversion
of their own: whenever the external libc converter `mbstowcs` turns the
byte string `s` into the wide characters `ws`, `GRRLIB_PrintfTTF` and
`GRRLIB_WidthTTF` behave exactly as the wide entry points applied to
`ws` itself — the text reaching glyph rendering is the converter's output,
unmodified. -/
theorem C4_no_own_conversion (mbstowcs : List Nat → Option (List Nat))
    (x y : Int) (myFont : Option GRRLIB_ttfFont) (s ws : List Nat)
    (fontSize color : Nat) (hdec : mbstowcs s = some ws) (hws : 0 ∉ ws) :
    GRRLIB_PrintfTTF mbstowcs x y myFont (some s) fontSize color =
      GRRLIB_PrintfTTFW x y myFont (some ws) fontSize color ∧
    GRRLIB_WidthTTF mbstowcs myFont (some s) fontSize =
      GRRLIB_WidthTTFW myFont (some ws) fontSize := by
  have key : ∀ (x' y' : Int) (color' : Nat) (noprint : Bool),
      _PrintfTTF mbstowcs x' y' myFont (some s) fontSize color' noprint =
      _PrintfTTFW x' y' myFont (some ws) fontSize color' noprint := by
    intro x' y' color' noprint
    cases myFont with
    | none => rfl
    | some font =>
      simp only [_PrintfTTF, hdec]
      by_cases hlen : 0 < ws.length
      · simp only [hlen, if_pos, _PrintfTTFW]
        rw [ttfLoop_append_nul _ _ _ _ _ _ _ _ _ _ _ ws hws 0 0]
      · have hnil : ws = [] := List.length_eq_zero.mp (by omega)
        subst hnil
        simp [_PrintfTTFW, ttfLoop, toU32]
  exact ⟨key x y color false, key 0 0 0 true⟩

/-- C4 witness: with a converter sending byte 65 to wide character 1, the
`char*` entry points coincide with the wide ones on `[1]`. -/
theorem C4_no_own_conversion_witness :
    GRRLIB_PrintfTTF (fun _ => some [1]) 2 3 (some fontA) (some [65]) 12
        255 =
      GRRLIB_PrintfTTFW 2 3 (some fontA) (some [1]) 12 255 ∧
    GRRLIB_WidthTTF (fun _ => some [1]) (some fontA) (some [65]) 12 =
      GRRLIB_WidthTTFW (some fontA) (some [1]) 12 :=
  C4_no_own_conversion (fun _ => some [1]) 2 3 (some fontA) [65] [1] 12
    255 rfl (by decide)

/-- The spec's two-call sequence for a single character (written from the
spec's description, to be compared with the loop): look up the glyph
index, apply kerning to the pen, ask the engine to rasterize the glyph
(first call); when rasterization succeeds and printing is on, emit the
glyph's coloured points at the current pen position (second call) and
advance the pen afterwards; a failed rasterization leaves pen advance and
remembered glyph unchanged. -/
def charCalls (Face : FT_FaceRec) (kerning : Bool) (x y : Int)
    (size : Nat) (penY : Int) (cR cG cB cA : Nat) (noprint : Bool)
    (pen : Int) (prev : Nat) (c : Nat) : List TTFEvent × Int × Nat :=
  let gi := Face.charIndex c
  let pen1 : Int :=
    if kerning ∧ prev ≠ 0 ∧ gi ≠ 0 then pen + asr6 (Face.kernX prev gi)
    else pen
  match Face.loadGlyph size gi with
  | none => ([TTFEvent.load gi], pen1, prev)
  | some slot =>
    (TTFEvent.load gi ::
      (if noprint then []
       else [TTFEvent.draw (DrawBitmap slot.bitmap
         (pen1 + slot.bitmap_left + x) (penY - slot.bitmap_top + y)
         cR cG cB cA)]),
     pen1 + asr6 slot.advanceX, gi)

/-- The spec's call sequence for a whole string: the characters are
processed in order, each contributing its two-call sequence, the pen and
remembered glyph threading from one character to the next. -/
def seqCalls (Face : FT_FaceRec) (kerning : Bool) (x y : Int) (size : Nat)
    (penY : Int) (cR cG cB cA : Nat) (noprint : Bool) :
    List Nat → Int → Nat → List TTFEvent
  | [], _, _ => []
  | c :: rest, pen, prev =>
    if c = 0 then []
    else
      let step := charCalls Face kerning x y size penY cR cG cB cA noprint
        pen prev c
      step.1 ++ seqCalls Face kerning x y size penY cR cG cB cA noprint
        rest step.2.1 step.2.2

/-- Checks the "rasterize then draw, nothing else interleaved" shape of a
call trace: every draw immediately follows a rasterization request, at
most one draw per request, and the trace never starts with a draw. -/
def twoCallShape : List TTFEvent → Bool
  | [] => true
  | TTFEvent.draw _ :: _ => false
  | [TTFEvent.load _] => true
  | TTFEvent.load _ :: TTFEvent.draw _ :: rest => twoCallShape rest
  | TTFEvent.load _ :: TTFEvent.load gi :: rest =>
    twoCallShape (TTFEvent.load gi :: rest)

/-- Prepending a rasterization request keeps a well-shaped trace
well shaped. -/
theorem twoCallShape_cons_load (gi : Nat) (l : List TTFEvent)
    (h : twoCallShape l = true) :
    twoCallShape (TTFEvent.load gi :: l) = true := by
  cases l with
  | nil => rfl
  | cons e rest =>
    cases e with
    | load gi2 => simpa [twoCallShape] using h
    | draw ps => simp [twoCallShape] at h

/-- C6: Two-call sequence per character: the loop's call trace is exactly
the concatenation, in string order, of each character's two-call sequence
(rasterize, then draw at the current pen position, pen advancing
afterwards), and the trace is well shaped: every draw immediately follows
its glyph's rasterization request, with no other drawing interleaved. -/
theorem C6_two_call_sequence (Face : FT_FaceRec) (kerning : Bool)
    (x y : Int) (size : Nat) (penY : Int) (cR cG cB cA : Nat)
    (noprint : Bool) (s : List Nat) (pen : Int) (prev : Nat) :
    (ttfLoop Face kerning x y size penY cR cG cB cA noprint s pen
      prev).2 =
      seqCalls Face kerning x y size penY cR cG cB cA noprint s pen
        prev ∧
    twoCallShape (ttfLoop Face kerning x y size penY cR cG cB cA noprint
      s pen prev).2 = true := by
  induction s generalizing pen prev with
  | nil => exact ⟨rfl, rfl⟩
  | cons c rest ih =>
    by_cases hc : c = 0
    · subst hc
      exact ⟨rfl, rfl⟩
    · cases hload : Face.loadGlyph size (Face.charIndex c) with
      | none =>
        constructor
        · simp [ttfLoop, seqCalls, charCalls, hc, hload, (ih _ _).1]
        · simp only [ttfLoop, hc, if_neg, hload]
          exact twoCallShape_cons_load _ _ (ih _ _).2
      | some slot =>
        cases noprint with
        | true =>
          constructor
          · simp [ttfLoop, seqCalls, charCalls, hc, hload, (ih _ _).1]
          · simp only [ttfLoop, hc, if_neg, hload]
            simpa using twoCallShape_cons_load _ _ (ih _ _).2
        | false =>
          constructor
          · simp [ttfLoop, seqCalls, charCalls, hc, hload, (ih _ _).1]
          · simp only [ttfLoop, hc, if_neg, hload]
            simpa [twoCallShape] using (ih _ _).2

/-- The width formula asserted by claim C3, written from the claim's
words: the sum over the string's characters whose glyphs load
successfully of `advance.x >> 6`, plus, when the font has kerning, the
kerning deltas `delta.x >> 6` between consecutive (successfully loaded)
glyphs with nonzero indices; a character whose glyph fails to load
contributes nothing. -/
def claimedWidthC3 (Face : FT_FaceRec) (kerning : Bool) (size : Nat) :
    List Nat → Nat → Int
  | [], _ => 0
  | c :: rest, prev =>
    if c = 0 then 0
    else
      let gi := Face.charIndex c
      match Face.loadGlyph size gi with
      | none => claimedWidthC3 Face kerning size rest prev
      | some slot =>
        (if kerning ∧ prev ≠ 0 ∧ gi ≠ 0 then asr6 (Face.kernX prev gi)
         else 0) +
          asr6 slot.advanceX + claimedWidthC3 Face kerning size rest gi

/-- C3 counterexample: on `fontA` (kerning on, all kerning deltas one
pixel) with the string `[1, 2]`, character 1 loads with a 10-pixel
advance and character 2 has a nonzero glyph index but fails to load.  The
code adds the kerning delta for the failing character before attempting
the load, so the returned width is 11, while the sum claimed by C3 is
10: the claim's equality fails at this input. -/
theorem C3_counterexample :
    (GRRLIB_WidthTTFW (some fontA) (some [1, 2]) 12).1 = 11 ∧
    claimedWidthC3 faceA true 12 [1, 2] 0 = 10 ∧
    ((GRRLIB_WidthTTFW (some fontA) (some [1, 2]) 12).1 : Int) ≠
      claimedWidthC3 faceA true 12 [1, 2] 0 := by
  refine ⟨?_, by decide, ?_⟩ <;> decide

/-- The amended width formula: the sum over the string's characters of a
kerning delta `delta.x >> 6` — added whenever the font has kerning, the
character's glyph index is nonzero and the most recently loaded glyph's
index is nonzero, even when the character's own glyph then fails to
load — plus `advance.x >> 6` for the characters whose glyphs load
successfully; the remembered glyph only changes on a successful load. -/
def amendedWidthC3 (Face : FT_FaceRec) (kerning : Bool) (size : Nat) :
    List Nat → Nat → Int
  | [], _ => 0
  | c :: rest, prev =>
    if c = 0 then 0
    else
      let gi := Face.charIndex c
      let kern : Int :=
        if kerning ∧ prev ≠ 0 ∧ gi ≠ 0 then asr6 (Face.kernX prev gi)
        else 0
      match Face.loadGlyph size gi with
      | none => kern + amendedWidthC3 Face kerning size rest prev
      | some slot =>
        kern + asr6 slot.advanceX + amendedWidthC3 Face kerning size rest gi

/-- The final pen of the glyph loop is its starting pen plus the amended
width sum. -/
theorem ttfLoop_fst_eq_amendedWidth (Face : FT_FaceRec) (kerning : Bool)
    (x y : Int) (size : Nat) (penY : Int) (cR cG cB cA : Nat)
    (noprint : Bool) (s : List Nat) (pen : Int) (prev : Nat) :
    (ttfLoop Face kerning x y size penY cR cG cB cA noprint s pen
      prev).1 =
    pen + amendedWidthC3 Face kerning size s prev := by
  induction s generalizing pen prev with
  | nil => simp [ttfLoop, amendedWidthC3]
  | cons c rest ih =>
    by_cases hc : c = 0
    · simp [ttfLoop, amendedWidthC3, hc]
    · cases hload : Face.loadGlyph size (Face.charIndex c) with
      | none =>
        simp [ttfLoop, amendedWidthC3, hc, hload, ih]
        split <;> ring
      | some slot =>
        simp [ttfLoop, amendedWidthC3, hc, hload, ih]
        split <;> ring

/-- C3 (amended): the width returned by `_PrintfTTFW` through both entry
points is the u32 conversion of the amended sum: per character a kerning
delta `delta.x >> 6` whenever the font has kerning and both the
character's glyph index and the most recently loaded glyph's index are
nonzero (added even when the character's glyph then fails to load), plus
`advance.x >> 6` for each character whose glyph loads successfully;
failing characters contribute no advance and no points. -/
theorem C3_width_is_amended_sum (font : GRRLIB_ttfFont) (s : List Nat)
    (fontSize : Nat) (x y : Int) (color : Nat) :
    (GRRLIB_WidthTTFW (some font) (some s) fontSize).1 =
      toU32 (amendedWidthC3 font.face font.kerning
        (if font.face.setPixelSizesOK fontSize then fontSize else 12)
        s 0) ∧
    (GRRLIB_PrintfTTFW x y (some font) (some s) fontSize color).1 =
      toU32 (amendedWidthC3 font.face font.kerning
        (if font.face.setPixelSizesOK fontSize then fontSize else 12)
        s 0) := by
  constructor
  · simp only [GRRLIB_WidthTTFW, _PrintfTTFW]
    rw [ttfLoop_fst_eq_amendedWidth]
    simp
  · simp only [GRRLIB_PrintfTTFW, _PrintfTTFW]
    rw [ttfLoop_fst_eq_amendedWidth]
    simp
